import Mathlib

/-!
# Verification of the usque MASQUE client packet path

A shallow embedding, over `List Nat` byte sequences (each byte reduced mod 256
where the Go `byte`/`uint16`/`uint32` types force truncation), of:

* `connect/packet.go` — `CheckPacket`, `ICMPForError`, `ipVersion`,
  `calculateIPv4Checksum`, `composeIPv4ICMP`, `composeIPv6ICMP`,
  `composeICMPTooLargePacket`, `composeICMPHopLimitExceededPacket`;
* `connect/http2.go` — `HTTP2Connection.ReadPacket` / `WritePacket`
  (the varint framing over the CONNECT body stream);
* the `connect/http3` datagram path — `HTTP3Connection.ReadPacket` /
  `WritePacket`;
* `api/tunnel.go` — the `NetBuffer` pool.

The quic-go `quicvarint` encoder/decoder and the `golang.org/x/net/icmp`
message marshaller are external library code invoked by the repository;
they are embedded here from their well-known observable behaviour
(RFC 9000 varints, RFC 792/4443 ICMP marshalling as implemented in
`x/net/icmp`), since the claims quantify over the bytes they produce.
-/

namespace Usque

/-- Go slicing `l[a:b]` on byte slices: drop `a`, keep `b - a` elements. -/
def goSlice (l : List Nat) (a b : Nat) : List Nat :=
  (l.drop a).take (b - a)

/-- `ipVersion` (connect/packet.go): `b[0] >> 4`, the version nibble.
The Go code only calls it on non-empty slices; the default `0` stands for
the out-of-range read that cannot occur on the guarded paths. -/
def ipVersion (b : List Nat) : Nat :=
  b.getD 0 0 % 256 / 16

/-- `CheckPacket` (connect/packet.go): `none` models a `nil` error,
`some ttl` models `&DatagramHopLimitExceeded{ttl}`. -/
def CheckPacket (b : List Nat) : Option Nat :=
  if b.length = 0 then none
  else if ipVersion b = 4 then
    if b.length < 20 then none
    else if b.getD 8 0 % 256 ≤ 1 then some (b.getD 8 0 % 256) else none
  else if ipVersion b = 6 then
    if b.length < 40 then none
    else if b.getD 7 0 % 256 ≤ 1 then some (b.getD 7 0 % 256) else none
  else none

/-- The internet-checksum helper of `golang.org/x/net/icmp` (`checksum`):
sums byte pairs as little-endian 16-bit words into a `uint32` accumulator
(hence the mod 2^32), adding a trailing odd byte unshifted. -/
def icmpSumPairs : List Nat → Nat → Nat
  | a :: b :: rest, s => icmpSumPairs rest ((s + ((b % 256) * 256 + a % 256)) % 4294967296)
  | [a], s => (s + a % 256) % 4294967296
  | [], s => s

/-- The final folding and complement of `x/net/icmp`'s `checksum`:
`s = s>>16 + s&0xffff; s = s + s>>16; return ^uint16(s)`. -/
def icmpChecksum (b : List Nat) : Nat :=
  let s := icmpSumPairs b 0
  let s := s / 65536 + s % 65536
  let s := s + s / 65536
  65535 - s % 65536

/-- `icmp.Message.Marshal(nil)` for an ICMPv4 message (protocol 1):
header `[type, code, 0, 0]`, body appended, then the checksum bytes are
stored low-byte first (`b[2] ^= byte(s); b[3] ^= byte(s >> 8)`). -/
def icmpMarshalV4 (t c : Nat) (body : List Nat) : List Nat :=
  let s := icmpChecksum ([t % 256, c % 256, 0, 0] ++ body)
  [t % 256, c % 256, s % 256, s / 256 % 256] ++ body

/-- Pad-or-truncate to 16 bytes, the effect of `copy` into the zeroed
16-byte slots of `icmp.IPv6PseudoHeader` (sources are always 16 bytes here). -/
def pad16 (l : List Nat) : List Nat :=
  (l ++ List.replicate 16 0).take 16

/-- `icmp.Message.Marshal(psh)` for an ICMPv6 message (protocol 58) with the
pseudo-header built by `icmp.IPv6PseudoHeader(src, dst)`: the checksum is
computed over `src ++ dst ++ be32(4+|body|) ++ [0,0,0,58] ++ [t,c,0,0] ++ body`
and the returned bytes are `[t, c, cksum_lo, cksum_hi] ++ body`. -/
def icmpMarshalV6 (src dst : List Nat) (t c : Nat) (body : List Nat) : List Nat :=
  let l := 4 + body.length
  let s := icmpChecksum
    (pad16 src ++ pad16 dst ++
      [l % 4294967296 / 16777216 % 256, l / 65536 % 256, l / 256 % 256, l % 256] ++
      [0, 0, 0, 58] ++ [t % 256, c % 256, 0, 0] ++ body)
  [t % 256, c % 256, s % 256, s / 256 % 256] ++ body

/-- `icmp.TimeExceeded{Data: data}.Marshal`: four zero bytes, then the data. -/
def timeExceededBody (data : List Nat) : List Nat :=
  [0, 0, 0, 0] ++ data

/-- `icmp.PacketTooBig{MTU: mtu, Data: data}.Marshal`: `uint32(mtu)`
big-endian, then the data. -/
def packetTooBigBody (mtu : Nat) (data : List Nat) : List Nat :=
  [mtu % 4294967296 / 16777216 % 256, mtu / 65536 % 256, mtu / 256 % 256, mtu % 256] ++ data

/-- iterative carry fold of `calculateIPv4Checksum` (connect/packet.go):
`for (sum >> 16) > 0 { sum = (sum & 0xffff) + (sum >> 16) }`. -/
def foldCarry (s : Nat) : Nat :=
  if h : 0 < s / 65536 then foldCarry (s % 65536 + s / 65536) else s
  termination_by s
  decreasing_by omega

/-- the big-endian 16-bit word sum of `calculateIPv4Checksum`, skipping the
checksum field at byte offset 10, with the `uint32` accumulator. -/
def calcSumAux : List Nat → Nat → Nat → Nat
  | a :: b :: rest, i, s =>
    if i = 10 then calcSumAux rest (i + 2) s
    else calcSumAux rest (i + 2) ((s + ((a % 256) * 256 + b % 256)) % 4294967296)
  | _, _, s => s

/-- `calculateIPv4Checksum` (connect/packet.go): one's-complement sum over the
16-bit words of the header with the checksum field skipped, folded and
inverted (`^uint16(sum)`). The header argument is always the 20-byte header
built by `composeIPv4ICMP`. -/
def calculateIPv4Checksum (header : List Nat) : Nat :=
  65535 - foldCarry (calcSumAux header 0 0) % 65536

/-- The big-endian 16-bit words of a byte sequence (an odd trailing byte is
padded with a zero low byte), the reading of a header over which the spec
states the checksum property. -/
def words16 : List Nat → List Nat
  | a :: b :: rest => (a * 256 + b) :: words16 rest
  | [a] => [a * 256]
  | [] => []

/-- The one's-complement 16-bit sum of a list of words: the plain sum with
the carries folded back in end-around. -/
def onesSum16 (l : List Nat) : Nat :=
  foldCarry l.sum

/-- `composeIPv4ICMP` (connect/packet.go): the 20-byte outer IPv4 header
(version/IHL `0x45`, total length, TTL 64, protocol 1, source, destination,
checksum at bytes 10-11 stored big-endian) followed by the ICMP bytes. -/
def composeIPv4ICMP (icmp source dest : List Nat) : List Nat :=
  let length := 20 + icmp.length
  let src4 := (source ++ List.replicate 4 0).take 4
  let dst4 := (dest ++ List.replicate 4 0).take 4
  let hdr0 := [69, 0, length % 65536 / 256, length % 256, 0, 0, 0, 0, 64, 1, 0, 0] ++ src4 ++ dst4
  let ck := calculateIPv4Checksum hdr0
  hdr0.take 10 ++ [ck % 65536 / 256, ck % 256] ++ hdr0.drop 12 ++ icmp

/-- `composeIPv6ICMP` (connect/packet.go): the 40-byte outer IPv6 header
(version nibble 6, payload length, next header 58, hop limit 64, source,
destination) followed by the ICMP bytes. -/
def composeIPv6ICMP (icmp source dest : List Nat) : List Nat :=
  let src16 := (source ++ List.replicate 16 0).take 16
  let dst16 := (dest ++ List.replicate 16 0).take 16
  [96, 0, 0, 0, icmp.length % 65536 / 256, icmp.length % 256, 58, 64] ++ src16 ++ dst16 ++ icmp

/-- `composeICMPTooLargePacket` (connect/packet.go). -/
def composeICMPTooLargePacket (packet : List Nat) (mtu : Nat) : Except String (List Nat) :=
  if packet.length = 0 then .error "empty packet"
  else if ipVersion packet = 4 then
    if packet.length < 20 then .error "IPv4 packet too short"
    else .ok (composeIPv4ICMP
      (icmpMarshalV4 3 4 (packetTooBigBody mtu (goSlice packet 0 (min packet.length 28))))
      (goSlice packet 16 20) (goSlice packet 12 16))
  else if ipVersion packet = 6 then
    if packet.length < 40 then .error "IPv6 packet too short"
    else .ok (composeIPv6ICMP
      (icmpMarshalV6 (goSlice packet 24 40) (goSlice packet 8 24) 2 0
        (packetTooBigBody mtu (goSlice packet 0 (min packet.length 1232))))
      (goSlice packet 24 40) (goSlice packet 8 24))
  else .error "unknown IP version"

/-- `composeICMPHopLimitExceededPacket` (connect/packet.go). -/
def composeICMPHopLimitExceededPacket (packet : List Nat) : Except String (List Nat) :=
  if packet.length = 0 then .error "empty packet"
  else if ipVersion packet = 4 then
    if packet.length < 20 then .error "IPv4 packet too short"
    else .ok (composeIPv4ICMP
      (icmpMarshalV4 11 0 (timeExceededBody (goSlice packet 0 (min packet.length 28))))
      (goSlice packet 16 20) (goSlice packet 12 16))
  else if ipVersion packet = 6 then
    if packet.length < 40 then .error "IPv6 packet too short"
    else .ok (composeIPv6ICMP
      (icmpMarshalV6 (goSlice packet 24 40) (goSlice packet 8 24) 3 0
        (timeExceededBody (goSlice packet 0 (min packet.length 1232))))
      (goSlice packet 24 40) (goSlice packet 8 24))
  else .error "unknown IP version"

/-- `quicvarint.Append` (quic-go): RFC 9000 variable-length integer encoding;
the bit-or with the length tag is written as an addition (the tag bits are
disjoint from the truncated value bits). `Append` panics for `i ≥ 2^62`;
that branch is unreachable here (the argument is always a slice length) and
is modelled as the empty encoding. -/
def appendVarint (i : Nat) : List Nat :=
  if i ≤ 63 then [i % 256]
  else if i ≤ 16383 then [i / 256 % 256 + 64, i % 256]
  else if i ≤ 1073741823 then
    [i / 16777216 % 256 + 128, i / 65536 % 256, i / 256 % 256, i % 256]
  else if i ≤ 4611686018427387903 then
    [i / 72057594037927936 % 256 + 192, i / 281474976710656 % 256, i / 1099511627776 % 256,
      i / 4294967296 % 256, i / 16777216 % 256, i / 65536 % 256, i / 256 % 256, i % 256]
  else []

/-- `quicvarint.Read`/`Parse` (quic-go): decode one varint from the front of a
byte stream, returning the value and the unconsumed remainder (`Parse` reports
the same consumed byte count). `(b & 0xc0) >> 6` is `b / 64` and `b & 0x3f`
is `b % 64` on bytes. `none` models the io error on a truncated stream. -/
def readVarint : List Nat → Option (Nat × List Nat)
  | [] => none
  | b0 :: rest =>
    let b := b0 % 256
    if b / 64 = 0 then some (b % 64, rest)
    else if b / 64 = 1 then
      match rest with
      | b2 :: r => some ((b % 64) * 256 + b2 % 256, r)
      | [] => none
    else if b / 64 = 2 then
      match rest with
      | b2 :: b3 :: b4 :: r =>
        some ((((b % 64) * 256 + b2 % 256) * 256 + b3 % 256) * 256 + b4 % 256, r)
      | _ => none
    else
      match rest with
      | b2 :: b3 :: b4 :: b5 :: b6 :: b7 :: b8 :: r =>
        some ((((((((b % 64) * 256 + b2 % 256) * 256 + b3 % 256) * 256 + b4 % 256) * 256
          + b5 % 256) * 256 + b6 % 256) * 256 + b7 % 256) * 256 + b8 % 256, r)
      | _ => none

/-- The errors dispatched by `ICMPForError` (connect/packet.go):
`*DatagramHopLimitExceeded`, `*quic.DatagramTooLargeError`, anything else. -/
inductive TunError where
  | hopLimitExceeded (hl : Nat)
  | datagramTooLarge (max : Nat)
  | other
  deriving DecidableEq, Repr

/-- `ICMPForError` (connect/packet.go): `.ok` models `(icmp, nil)`,
`.error` models `(nil, err)`. -/
def ICMPForError (e : TunError) (data : List Nat) : Except String (List Nat) :=
  match e with
  | .hopLimitExceeded _ => composeICMPHopLimitExceededPacket data
  | .datagramTooLarge max => composeICMPTooLargePacket data max
  | .other => .error "unhandled error"

/-- A varint decode consumes at least one byte (termination measure for the
`ReadPacket` skip loop). -/
theorem readVarint_length {s : List Nat} {v : Nat} {r : List Nat}
    (h : readVarint s = some (v, r)) : r.length < s.length := by
  match s with
  | [] => simp [readVarint] at h
  | b0 :: rest =>
    simp only [readVarint] at h
    repeat' split at h
    all_goals simp_all
    all_goals omega

/-- Result of one `HTTP2Connection.ReadPacket` call: `packet data rest` models
a successful return (the bytes placed in `buf[:length]` and the unread tail of
the body stream), `sliceOOB` models the runtime panic of `buf[:length]` when
`length > cap(buf)`, `fail` models an error return (truncated stream). -/
inductive H2ReadResult where
  | packet (data rest : List Nat)
  | sliceOOB (length : Nat)
  | fail
  deriving DecidableEq, Repr

/-- `HTTP2Connection.ReadPacket` (connect/http2.go) reading from a body stream
modelled as the list of bytes it will yield: read a varint context id, a
varint length, slice `buf[:length]` (panic if `length` exceeds the buffer
capacity `bufCap`), read exactly `length` bytes, return them if the context
id is 0 and otherwise skip the record and loop. -/
def http2ReadPacket (bufCap : Nat) (stream : List Nat) : H2ReadResult :=
  match h1 : readVarint stream with
  | none => .fail
  | some (contextID, s1) =>
    match h2 : readVarint s1 with
    | none => .fail
    | some (length, s2) =>
      if bufCap < length then .sliceOOB length
      else if length ≤ s2.length then
        if contextID = 0 then .packet (s2.take length) (s2.drop length)
        else http2ReadPacket bufCap (s2.drop length)
      else .fail
  termination_by stream.length
  decreasing_by
    have a1 := readVarint_length h1
    have a2 := readVarint_length h2
    simp only [List.length_drop]
    omega

/-- Outcome of one `WritePacket` call on either transport: `icmp` models
`(icmp, nil)` with a synthesized reply, `sent wire` models `(nil, nil)` with
`wire` handed to the underlying stream or datagram send, `errOut` models
`(nil, err)`. -/
inductive WriteResult where
  | icmp (pkt : List Nat)
  | sent (wire : List Nat)
  | errOut
  deriving DecidableEq, Repr

/-- `HTTP2Connection.WritePacket` (connect/http2.go), with the pipe write
assumed to succeed (its failure paths return `net.ErrClosed` or
`ICMPForError`): on an inspection verdict, return the synthesized ICMP;
otherwise frame `varint(0) ++ varint(len) ++ packet` into the body stream. -/
def http2WritePacket (buf : List Nat) : WriteResult :=
  match CheckPacket buf with
  | some hl =>
    match ICMPForError (.hopLimitExceeded hl) buf with
    | .ok icmp => .icmp icmp
    | .error _ => .errOut
  | none => .sent (0 :: (appendVarint buf.length ++ buf))

/-- Result of `conn.SendDatagram` inside `HTTP3Connection.WritePacket`,
abstracting the QUIC layer. -/
inductive SendResult where
  | ok
  | tooLarge (max : Nat)
  | otherErr
  deriving DecidableEq, Repr

/-- `HTTP3Connection.WritePacket` (connect masque source): inspection first,
then `varint(0) ++ packet` sent as one datagram; a
`quic.DatagramTooLargeError{max}` send failure is turned into a Packet Too
Big ICMP by `ICMPForError`, any other send failure is returned as an error. -/
def http3WritePacket (send : SendResult) (buf : List Nat) : WriteResult :=
  match CheckPacket buf with
  | some hl =>
    match ICMPForError (.hopLimitExceeded hl) buf with
    | .ok icmp => .icmp icmp
    | .error _ => .errOut
  | none =>
    match send with
    | .ok => .sent (0 :: buf)
    | .tooLarge max =>
      match ICMPForError (.datagramTooLarge max) buf with
      | .ok icmp => .icmp icmp
      | .error _ => .errOut
    | .otherErr => .errOut

/-- Result of one `HTTP3Connection.ReadPacket` call. -/
inductive H3ReadResult where
  | packet (data : List Nat) (rest : List (List Nat))
  | malformed
  | closed
  deriving DecidableEq, Repr

/-- `HTTP3Connection.ReadPacket` (connect masque source) over the sequence of
datagrams the QUIC connection will deliver: parse the leading varint of each
datagram, return `copy(buf, data[n:])` (truncation to the buffer length) when
the context id is 0, silently skip other context ids. Exhaustion of the
supply models `ReceiveDatagram` failing with the context cancelled
(`net.ErrClosed`). -/
def http3ReadPacket (bufLen : Nat) : List (List Nat) → H3ReadResult
  | [] => .closed
  | d :: ds =>
    match readVarint d with
    | none => .malformed
    | some (contextID, rest) =>
      if contextID = 0 then .packet (rest.take bufLen) ds
      else http3ReadPacket bufLen ds

/-- A Go byte slice abstracted to its length and capacity, the only attributes
`NetBuffer` inspects. -/
structure GoSlice where
  len : Nat
  cap : Nat
  deriving DecidableEq, Repr

/-- `NetBuffer.Put` (api/tunnel.go): a buffer whose capacity differs from the
pool capacity is dropped, otherwise it joins the pooled set. -/
def netBufferPut (capacity : Nat) (pool : List GoSlice) (buf : GoSlice) : List GoSlice :=
  if buf.cap ≠ capacity then pool else buf :: pool

/-- `NetBuffer.Get` (api/tunnel.go): `sync.Pool.Get` nondeterministically
returns some pooled object or falls back to `New` (`make([]byte, capacity)`).
The runtime's choice (including its freedom to have evicted entries) is
modelled by an index: out of range means the `New` fallback. -/
def netBufferGet (capacity : Nat) (pool : List GoSlice) (choice : Nat) :
    GoSlice × List GoSlice :=
  if h : choice < pool.length then (pool.get ⟨choice, h⟩, pool.eraseIdx choice)
  else (⟨capacity, capacity⟩, pool)

/-- One client interaction with a `NetBuffer`. -/
inductive PoolOp where
  | get (choice : Nat)
  | put (buf : GoSlice)
  deriving DecidableEq, Repr

/-- Run a sequence of `Get`/`Put` operations against a `NetBuffer` of the
given capacity, returning the final pooled set and every buffer a `Get`
handed out, in order. -/
def runPool (capacity : Nat) : List PoolOp → List GoSlice → List GoSlice × List GoSlice
  | [], pool => (pool, [])
  | .get c :: rest, pool =>
    let g := netBufferGet capacity pool c
    let t := runPool capacity rest g.2
    (t.1, g.1 :: t.2)
  | .put b :: rest, pool => runPool capacity rest (netBufferPut capacity pool b)

/-- RFC 9000 varint roundtrip: decoding an encoded value consumes exactly
the encoding and returns the value (all encodable values, i.e. below 2^62). -/
theorem readVarint_appendVarint (n : Nat) (rest : List Nat)
    (h : n < 4611686018427387904) :
    readVarint (appendVarint n ++ rest) = some (n, rest) := by
  unfold appendVarint
  by_cases h1 : n ≤ 63
  · rw [if_pos h1]
    simp only [List.cons_append, List.nil_append, readVarint]
    rw [if_pos (by omega)]
    simp only [Option.some.injEq, Prod.mk.injEq, and_true]
    omega
  by_cases h2 : n ≤ 16383
  · rw [if_neg h1, if_pos h2]
    simp only [List.cons_append, List.nil_append, readVarint]
    rw [if_neg (by omega), if_pos (by omega)]
    simp only [Option.some.injEq, Prod.mk.injEq, and_true]
    omega
  by_cases h3 : n ≤ 1073741823
  · rw [if_neg h1, if_neg h2, if_pos h3]
    simp only [List.cons_append, List.nil_append, readVarint]
    rw [if_neg (by omega), if_neg (by omega), if_pos (by omega)]
    simp only [Option.some.injEq, Prod.mk.injEq, and_true]
    have k1 : n / 256 / 256 = n / 65536 := by
      rw [Nat.div_div_eq_div_mul]
    have k2 : n / 65536 / 256 = n / 16777216 := by
      rw [Nat.div_div_eq_div_mul]
    omega
  · rw [if_neg h1, if_neg h2, if_neg h3, if_pos (by omega)]
    simp only [List.cons_append, List.nil_append, readVarint]
    rw [if_neg (by omega), if_neg (by omega), if_neg (by omega)]
    simp only [Option.some.injEq, Prod.mk.injEq, and_true]
    have k1 : n / 256 / 256 = n / 65536 := by
      rw [Nat.div_div_eq_div_mul]
    have k2 : n / 65536 / 256 = n / 16777216 := by
      rw [Nat.div_div_eq_div_mul]
    have k3 : n / 16777216 / 256 = n / 4294967296 := by
      rw [Nat.div_div_eq_div_mul]
    have k4 : n / 4294967296 / 256 = n / 1099511627776 := by
      rw [Nat.div_div_eq_div_mul]
    have k5 : n / 1099511627776 / 256 = n / 281474976710656 := by
      rw [Nat.div_div_eq_div_mul]
    have k6 : n / 281474976710656 / 256 = n / 72057594037927936 := by
      rw [Nat.div_div_eq_div_mul]
    omega

/-- One full record at the head of the body stream: consumed entirely; its
payload is returned exactly when its context id is 0. -/
theorem http2ReadPacket_record (bufCap c : Nat) (p rest : List Nat)
    (hc : c < 4611686018427387904) (hv : p.length < 4611686018427387904)
    (hcap : p.length ≤ bufCap) :
    http2ReadPacket bufCap (appendVarint c ++ (appendVarint p.length ++ p) ++ rest) =
      if c = 0 then .packet p rest else http2ReadPacket bufCap rest := by
  rw [http2ReadPacket]
  rw [List.append_assoc, readVarint_appendVarint c _ hc]
  dsimp only
  rw [List.append_assoc, readVarint_appendVarint _ _ hv]
  dsimp only
  rw [if_neg (by omega)]
  rw [if_pos (by simp [List.length_append])]
  rw [List.take_left' (rfl : p.length = p.length), List.drop_left' (rfl : p.length = p.length)]

/-- The carry fold terminates below 2^16. -/
theorem foldCarry_lt (s : Nat) : foldCarry s < 65536 := by
  induction s using foldCarry.induct with
  | case1 x h ih => rw [foldCarry, dif_pos h]; exact ih
  | case2 x h => rw [foldCarry, dif_neg h]; omega

/-- The carry fold preserves the residue modulo 65535 (2^16 ≡ 1). -/
theorem foldCarry_mod (s : Nat) : foldCarry s % 65535 = s % 65535 := by
  induction s using foldCarry.induct with
  | case1 x h ih => rw [foldCarry, dif_pos h]; omega
  | case2 x h => rw [foldCarry, dif_neg h]

/-- The carry fold of a positive number is positive. -/
theorem foldCarry_pos (s : Nat) (h0 : 0 < s) : 0 < foldCarry s := by
  induction s using foldCarry.induct with
  | case1 x h ih => rw [foldCarry, dif_pos h]; exact ih (by omega)
  | case2 x h => rw [foldCarry, dif_neg h]; omega

/-- A positive multiple of 65535 folds to exactly 65535. -/
theorem foldCarry_complete (s : Nat) (h0 : 0 < s) (hm : s % 65535 = 0) :
    foldCarry s = 65535 := by
  have a := foldCarry_lt s
  have b := foldCarry_mod s
  have c := foldCarry_pos s h0
  omega

/-- `sliceOOB` arises only when the record's declared length exceeds the
buffer capacity. -/
theorem http2ReadPacket_sliceOOB (bufCap : Nat) (stream : List Nat) (L : Nat)
    (h : http2ReadPacket bufCap stream = .sliceOOB L) : bufCap < L := by
  induction stream using http2ReadPacket.induct bufCap with
  | case1 x h1 =>
    rw [http2ReadPacket, h1] at h; exact absurd h (by simp)
  | case2 x len s2 h1 h2 =>
    rw [http2ReadPacket, h1] at h; dsimp only at h; rw [h2] at h; exact absurd h (by simp)
  | case3 x len s2 h1 len1 s21 h2 hlt =>
    rw [http2ReadPacket, h1] at h; dsimp only at h; rw [h2] at h; dsimp only at h
    rw [if_pos hlt] at h; cases h; exact hlt
  | case4 x s2 len s21 h2 hnlt hle h1 =>
    rw [http2ReadPacket, h1] at h; dsimp only at h; rw [h2] at h; dsimp only at h
    rw [if_neg hnlt, if_pos hle, if_pos rfl] at h; exact absurd h (by simp)
  | case5 x len s2 h1 len1 s21 h2 hnlt hle hne ih =>
    rw [http2ReadPacket, h1] at h; dsimp only at h; rw [h2] at h; dsimp only at h
    rw [if_neg hnlt, if_pos hle, if_neg hne] at h; exact ih h
  | case6 x len s2 h1 len1 s21 h2 hnlt hnle =>
    rw [http2ReadPacket, h1] at h; dsimp only at h; rw [h2] at h; dsimp only at h
    rw [if_neg hnlt, if_neg hnle] at h; exact absurd h (by simp)

/-- A list of length 4 is a four-element literal. -/
theorem list4_of_length {l : List Nat} (h : l.length = 4) :
    ∃ a b c d, l = [a, b, c, d] := by
  match l with
  | [a, b, c, d] => exact ⟨a, b, c, d, rfl⟩
  | [] | [_] | [_, _] | [_, _, _] => simp at h
  | _ :: _ :: _ :: _ :: _ :: _ => simp at h

/-- `composeIPv4ICMP` on 4-byte addresses: fixed header bytes, the total
length field, the checksum field, then source, destination and payload
verbatim. -/
theorem composeIPv4ICMP_shape (icmp source dest : List Nat)
    (hs : source.length = 4) (hd : dest.length = 4) :
    ∃ t1 t2 c1 c2, composeIPv4ICMP icmp source dest =
      [69, 0, t1, t2, 0, 0, 0, 0, 64, 1, c1, c2] ++ (source ++ (dest ++ icmp)) := by
  obtain ⟨s0, s1, s2, s3, rfl⟩ := list4_of_length hs
  obtain ⟨d0, d1, d2, d3, rfl⟩ := list4_of_length hd
  exact ⟨_, _, _, _, rfl⟩

/-- `composeIPv6ICMP` on 16-byte addresses: fixed header bytes, the payload
length field, then source, destination and payload verbatim. -/
theorem composeIPv6ICMP_shape (icmp source dest : List Nat)
    (hs : source.length = 16) (hd : dest.length = 16) :
    ∃ p1 p2, composeIPv6ICMP icmp source dest =
      [96, 0, 0, 0, p1, p2, 58, 64] ++ (source ++ (dest ++ icmp)) := by
  refine ⟨icmp.length % 65536 / 256, icmp.length % 256, ?_⟩
  simp only [composeIPv6ICMP]
  rw [List.take_left' hs, List.take_left' hd]
  simp [List.append_assoc]

/-- The marshalled ICMPv4 message: type, code, two checksum bytes, body. -/
theorem icmpMarshalV4_shape (t c : Nat) (body : List Nat) :
    ∃ c1 c2, icmpMarshalV4 t c body = t % 256 :: c % 256 :: c1 :: c2 :: body :=
  ⟨_, _, rfl⟩

/-- The marshalled ICMPv6 message: type, code, two checksum bytes, body. -/
theorem icmpMarshalV6_shape (src dst : List Nat) (t c : Nat) (body : List Nat) :
    ∃ c1 c2, icmpMarshalV6 src dst t c body = t % 256 :: c % 256 :: c1 :: c2 :: body :=
  ⟨_, _, rfl⟩

/-- Field extraction from the synthesized IPv4 packet shape. -/
theorem fields_v4 (t1 t2 c1 c2 : Nat) (src dst msg : List Nat)
    (hs : src.length = 4) (hd : dst.length = 4) :
    goSlice ([69, 0, t1, t2, 0, 0, 0, 0, 64, 1, c1, c2] ++ (src ++ (dst ++ msg))) 12 16 = src ∧
    goSlice ([69, 0, t1, t2, 0, 0, 0, 0, 64, 1, c1, c2] ++ (src ++ (dst ++ msg))) 16 20 = dst ∧
    List.drop 20 ([69, 0, t1, t2, 0, 0, 0, 0, 64, 1, c1, c2] ++ (src ++ (dst ++ msg))) = msg := by
  have e12 : List.drop 12 ([69, 0, t1, t2, 0, 0, 0, 0, 64, 1, c1, c2] ++ (src ++ (dst ++ msg)))
      = src ++ (dst ++ msg) := rfl
  have e16 : List.drop 16 ([69, 0, t1, t2, 0, 0, 0, 0, 64, 1, c1, c2] ++ (src ++ (dst ++ msg)))
      = dst ++ msg := by
    rw [show (16 : Nat) = 12 + 4 from rfl, ← List.drop_drop, e12, List.drop_left' hs]
  have e20 : List.drop 20 ([69, 0, t1, t2, 0, 0, 0, 0, 64, 1, c1, c2] ++ (src ++ (dst ++ msg)))
      = msg := by
    rw [show (20 : Nat) = 16 + 4 from rfl, ← List.drop_drop, e16, List.drop_left' hd]
  refine ⟨?_, ?_, e20⟩
  · show ((List.drop 12 _).take 4) = src
    rw [e12, List.take_left' hs]
  · show ((List.drop 16 _).take 4) = dst
    rw [e16, List.take_left' hd]

/-- Field extraction from the synthesized IPv6 packet shape. -/
theorem fields_v6 (p1 p2 : Nat) (src dst msg : List Nat)
    (hs : src.length = 16) (hd : dst.length = 16) :
    goSlice ([96, 0, 0, 0, p1, p2, 58, 64] ++ (src ++ (dst ++ msg))) 8 24 = src ∧
    goSlice ([96, 0, 0, 0, p1, p2, 58, 64] ++ (src ++ (dst ++ msg))) 24 40 = dst ∧
    List.drop 40 ([96, 0, 0, 0, p1, p2, 58, 64] ++ (src ++ (dst ++ msg))) = msg := by
  have e8 : List.drop 8 ([96, 0, 0, 0, p1, p2, 58, 64] ++ (src ++ (dst ++ msg)))
      = src ++ (dst ++ msg) := rfl
  have e24 : List.drop 24 ([96, 0, 0, 0, p1, p2, 58, 64] ++ (src ++ (dst ++ msg)))
      = dst ++ msg := by
    rw [show (24 : Nat) = 8 + 16 from rfl, ← List.drop_drop, e8, List.drop_left' hs]
  have e40 : List.drop 40 ([96, 0, 0, 0, p1, p2, 58, 64] ++ (src ++ (dst ++ msg)))
      = msg := by
    rw [show (40 : Nat) = 24 + 16 from rfl, ← List.drop_drop, e24, List.drop_left' hd]
  refine ⟨?_, ?_, e40⟩
  · show ((List.drop 8 _).take 16) = src
    rw [e8, List.take_left' hs]
  · show ((List.drop 24 _).take 16) = dst
    rw [e24, List.take_left' hd]

/-- Go slices of a sufficiently long packet have the sliced length. -/
theorem goSlice_length (l : List Nat) (a b : Nat) (hab : a ≤ b) (hb : b ≤ l.length) :
    (goSlice l a b).length = b - a := by
  simp only [goSlice, List.length_take, List.length_drop]
  omega

/-- Evaluation of the hop-limit synthesizer on an accepted IPv4 packet. -/
theorem composeHop_v4 (p : List Nat) (hv : ipVersion p = 4) (hl : 20 ≤ p.length) :
    composeICMPHopLimitExceededPacket p = .ok (composeIPv4ICMP
      (icmpMarshalV4 11 0 (timeExceededBody (goSlice p 0 (min p.length 28))))
      (goSlice p 16 20) (goSlice p 12 16)) := by
  unfold composeICMPHopLimitExceededPacket
  rw [if_neg (by omega), if_pos hv, if_neg (by omega)]

/-- Evaluation of the hop-limit synthesizer on an accepted IPv6 packet. -/
theorem composeHop_v6 (p : List Nat) (hv : ipVersion p = 6) (hl : 40 ≤ p.length) :
    composeICMPHopLimitExceededPacket p = .ok (composeIPv6ICMP
      (icmpMarshalV6 (goSlice p 24 40) (goSlice p 8 24) 3 0
        (timeExceededBody (goSlice p 0 (min p.length 1232))))
      (goSlice p 24 40) (goSlice p 8 24)) := by
  unfold composeICMPHopLimitExceededPacket
  rw [if_neg (by omega), if_neg (by omega), if_pos hv, if_neg (by omega)]

/-- Evaluation of the too-large synthesizer on an accepted IPv4 packet. -/
theorem composeTooLarge_v4 (p : List Nat) (mtu : Nat) (hv : ipVersion p = 4)
    (hl : 20 ≤ p.length) :
    composeICMPTooLargePacket p mtu = .ok (composeIPv4ICMP
      (icmpMarshalV4 3 4 (packetTooBigBody mtu (goSlice p 0 (min p.length 28))))
      (goSlice p 16 20) (goSlice p 12 16)) := by
  unfold composeICMPTooLargePacket
  rw [if_neg (by omega), if_pos hv, if_neg (by omega)]

/-- Evaluation of the too-large synthesizer on an accepted IPv6 packet. -/
theorem composeTooLarge_v6 (p : List Nat) (mtu : Nat) (hv : ipVersion p = 6)
    (hl : 40 ≤ p.length) :
    composeICMPTooLargePacket p mtu = .ok (composeIPv6ICMP
      (icmpMarshalV6 (goSlice p 24 40) (goSlice p 8 24) 2 0
        (packetTooBigBody mtu (goSlice p 0 (min p.length 1232))))
      (goSlice p 24 40) (goSlice p 8 24)) := by
  unfold composeICMPTooLargePacket
  rw [if_neg (by omega), if_neg (by omega), if_pos hv, if_neg (by omega)]

/-- C1: the TTL / hop-limit gate. For an IPv4 packet (version nibble 4, at
least 20 bytes) whose TTL byte `packet[8]` is at most 1, `WritePacket` on
either transport returns a non-empty synthesized ICMP packet whose outer
source is the packet's destination, whose outer destination is the packet's
source, and whose ICMP type/code bytes are 11/0; symmetrically for IPv6
(version nibble 6, at least 40 bytes, hop-limit byte `packet[7]` at most 1)
with ICMPv6 type/code 3/0. -/
theorem c1_ttl_gate (p : List Nat) :
    (ipVersion p = 4 → 20 ≤ p.length → p.getD 8 0 % 256 ≤ 1 →
      ∃ out, http2WritePacket p = .icmp out ∧
        (∀ send, http3WritePacket send p = .icmp out) ∧
        out ≠ [] ∧
        goSlice out 12 16 = goSlice p 16 20 ∧
        goSlice out 16 20 = goSlice p 12 16 ∧
        goSlice out 20 22 = [11, 0]) ∧
    (ipVersion p = 6 → 40 ≤ p.length → p.getD 7 0 % 256 ≤ 1 →
      ∃ out, http2WritePacket p = .icmp out ∧
        (∀ send, http3WritePacket send p = .icmp out) ∧
        out ≠ [] ∧
        goSlice out 8 24 = goSlice p 24 40 ∧
        goSlice out 24 40 = goSlice p 8 24 ∧
        goSlice out 40 42 = [3, 0]) := by
  constructor
  · intro hv hl ht
    have hchk : CheckPacket p = some (p.getD 8 0 % 256) := by
      unfold CheckPacket
      rw [if_neg (by omega), if_pos hv, if_neg (by omega), if_pos ht]
    have srcLen : (goSlice p 16 20).length = 4 := goSlice_length p 16 20 (by omega) (by omega)
    have dstLen : (goSlice p 12 16).length = 4 := goSlice_length p 12 16 (by omega) (by omega)
    obtain ⟨m1, m2, hmsg⟩ :=
      icmpMarshalV4_shape 11 0 (timeExceededBody (goSlice p 0 (min p.length 28)))
    obtain ⟨t1, t2, k1, k2, hshape⟩ := composeIPv4ICMP_shape
      (icmpMarshalV4 11 0 (timeExceededBody (goSlice p 0 (min p.length 28))))
      (goSlice p 16 20) (goSlice p 12 16) srcLen dstLen
    obtain ⟨f1, f2, f3⟩ := fields_v4 t1 t2 k1 k2 (goSlice p 16 20) (goSlice p 12 16)
      (icmpMarshalV4 11 0 (timeExceededBody (goSlice p 0 (min p.length 28)))) srcLen dstLen
    refine ⟨composeIPv4ICMP (icmpMarshalV4 11 0 (timeExceededBody (goSlice p 0 (min p.length 28))))
      (goSlice p 16 20) (goSlice p 12 16), ?_, ?_, ?_, ?_, ?_, ?_⟩
    · unfold http2WritePacket
      rw [hchk]
      dsimp only
      unfold ICMPForError
      rw [composeHop_v4 p hv hl]
    · intro send
      unfold http3WritePacket
      rw [hchk]
      dsimp only
      unfold ICMPForError
      rw [composeHop_v4 p hv hl]
    · rw [hshape]; simp
    · rw [hshape]; exact f1
    · rw [hshape]; exact f2
    · rw [hshape]
      show (List.drop 20 _).take 2 = _
      rw [f3, hmsg]
      rfl
  · intro hv hl ht
    have hchk : CheckPacket p = some (p.getD 7 0 % 256) := by
      unfold CheckPacket
      rw [if_neg (by omega), if_neg (by omega), if_pos hv, if_neg (by omega), if_pos ht]
    have srcLen : (goSlice p 24 40).length = 16 := goSlice_length p 24 40 (by omega) (by omega)
    have dstLen : (goSlice p 8 24).length = 16 := goSlice_length p 8 24 (by omega) (by omega)
    obtain ⟨m1, m2, hmsg⟩ := icmpMarshalV6_shape (goSlice p 24 40) (goSlice p 8 24) 3 0
      (timeExceededBody (goSlice p 0 (min p.length 1232)))
    obtain ⟨t1, t2, hshape⟩ := composeIPv6ICMP_shape
      (icmpMarshalV6 (goSlice p 24 40) (goSlice p 8 24) 3 0
        (timeExceededBody (goSlice p 0 (min p.length 1232))))
      (goSlice p 24 40) (goSlice p 8 24) srcLen dstLen
    obtain ⟨f1, f2, f3⟩ := fields_v6 t1 t2 (goSlice p 24 40) (goSlice p 8 24)
      (icmpMarshalV6 (goSlice p 24 40) (goSlice p 8 24) 3 0
        (timeExceededBody (goSlice p 0 (min p.length 1232)))) srcLen dstLen
    refine ⟨composeIPv6ICMP
      (icmpMarshalV6 (goSlice p 24 40) (goSlice p 8 24) 3 0
        (timeExceededBody (goSlice p 0 (min p.length 1232))))
      (goSlice p 24 40) (goSlice p 8 24), ?_, ?_, ?_, ?_, ?_, ?_⟩
    · unfold http2WritePacket
      rw [hchk]
      dsimp only
      unfold ICMPForError
      rw [composeHop_v6 p hv hl]
    · intro send
      unfold http3WritePacket
      rw [hchk]
      dsimp only
      unfold ICMPForError
      rw [composeHop_v6 p hv hl]
    · rw [hshape]; simp
    · rw [hshape]; exact f1
    · rw [hshape]; exact f2
    · rw [hshape]
      show (List.drop 40 _).take 2 = _
      rw [f3, hmsg]
      rfl

/-- C4: the MTU gate. For a packet that passes inspection and is long enough
for its version, an `HTTP3Connection.WritePacket` whose datagram send fails
with `DatagramTooLargeError{max}` returns, without error, a synthesized
Fragmentation Needed (IPv4 type 3 code 4) or Packet Too Big (IPv6 type 2
code 0) ICMP whose MTU field encodes `max` big-endian and whose outer
source/destination are the original destination/source. -/
theorem c4_mtu_gate (p : List Nat) (max : Nat) (hchk : CheckPacket p = none)
    (hmax : max < 4294967296) :
    (ipVersion p = 4 → 20 ≤ p.length →
      ∃ out, http3WritePacket (.tooLarge max) p = .icmp out ∧
        goSlice out 12 16 = goSlice p 16 20 ∧
        goSlice out 16 20 = goSlice p 12 16 ∧
        goSlice out 20 22 = [3, 4] ∧
        goSlice out 24 28 =
          [max / 16777216 % 256, max / 65536 % 256, max / 256 % 256, max % 256]) ∧
    (ipVersion p = 6 → 40 ≤ p.length →
      ∃ out, http3WritePacket (.tooLarge max) p = .icmp out ∧
        goSlice out 8 24 = goSlice p 24 40 ∧
        goSlice out 24 40 = goSlice p 8 24 ∧
        goSlice out 40 42 = [2, 0] ∧
        goSlice out 44 48 =
          [max / 16777216 % 256, max / 65536 % 256, max / 256 % 256, max % 256]) := by
  constructor
  · intro hv hl
    have srcLen : (goSlice p 16 20).length = 4 := goSlice_length p 16 20 (by omega) (by omega)
    have dstLen : (goSlice p 12 16).length = 4 := goSlice_length p 12 16 (by omega) (by omega)
    obtain ⟨m1, m2, hmsg⟩ :=
      icmpMarshalV4_shape 3 4 (packetTooBigBody max (goSlice p 0 (min p.length 28)))
    obtain ⟨t1, t2, k1, k2, hshape⟩ := composeIPv4ICMP_shape
      (icmpMarshalV4 3 4 (packetTooBigBody max (goSlice p 0 (min p.length 28))))
      (goSlice p 16 20) (goSlice p 12 16) srcLen dstLen
    obtain ⟨f1, f2, f3⟩ := fields_v4 t1 t2 k1 k2 (goSlice p 16 20) (goSlice p 12 16)
      (icmpMarshalV4 3 4 (packetTooBigBody max (goSlice p 0 (min p.length 28)))) srcLen dstLen
    refine ⟨composeIPv4ICMP
      (icmpMarshalV4 3 4 (packetTooBigBody max (goSlice p 0 (min p.length 28))))
      (goSlice p 16 20) (goSlice p 12 16), ?_, ?_, ?_, ?_, ?_⟩
    · unfold http3WritePacket
      rw [hchk]
      dsimp only
      unfold ICMPForError
      dsimp only
      rw [composeTooLarge_v4 p max hv hl]
    · rw [hshape]; exact f1
    · rw [hshape]; exact f2
    · rw [hshape]
      show (List.drop 20 _).take 2 = _
      rw [f3, hmsg]
      rfl
    · rw [hshape]
      show (List.drop 24 _).take 4 = _
      rw [show (24 : Nat) = 20 + 4 from rfl, ← List.drop_drop, f3, hmsg]
      show List.take 4 (packetTooBigBody max (goSlice p 0 (min p.length 28))) = _
      unfold packetTooBigBody
      rw [Nat.mod_eq_of_lt hmax]
      rfl
  · intro hv hl
    have srcLen : (goSlice p 24 40).length = 16 := goSlice_length p 24 40 (by omega) (by omega)
    have dstLen : (goSlice p 8 24).length = 16 := goSlice_length p 8 24 (by omega) (by omega)
    obtain ⟨m1, m2, hmsg⟩ := icmpMarshalV6_shape (goSlice p 24 40) (goSlice p 8 24) 2 0
      (packetTooBigBody max (goSlice p 0 (min p.length 1232)))
    obtain ⟨t1, t2, hshape⟩ := composeIPv6ICMP_shape
      (icmpMarshalV6 (goSlice p 24 40) (goSlice p 8 24) 2 0
        (packetTooBigBody max (goSlice p 0 (min p.length 1232))))
      (goSlice p 24 40) (goSlice p 8 24) srcLen dstLen
    obtain ⟨f1, f2, f3⟩ := fields_v6 t1 t2 (goSlice p 24 40) (goSlice p 8 24)
      (icmpMarshalV6 (goSlice p 24 40) (goSlice p 8 24) 2 0
        (packetTooBigBody max (goSlice p 0 (min p.length 1232)))) srcLen dstLen
    refine ⟨composeIPv6ICMP
      (icmpMarshalV6 (goSlice p 24 40) (goSlice p 8 24) 2 0
        (packetTooBigBody max (goSlice p 0 (min p.length 1232))))
      (goSlice p 24 40) (goSlice p 8 24), ?_, ?_, ?_, ?_, ?_⟩
    · unfold http3WritePacket
      rw [hchk]
      dsimp only
      unfold ICMPForError
      dsimp only
      rw [composeTooLarge_v6 p max hv hl]
    · rw [hshape]; exact f1
    · rw [hshape]; exact f2
    · rw [hshape]
      show (List.drop 40 _).take 2 = _
      rw [f3, hmsg]
      rfl
    · rw [hshape]
      show (List.drop 44 _).take 4 = _
      rw [show (44 : Nat) = 40 + 4 from rfl, ← List.drop_drop, f3, hmsg]
      show List.take 4 (packetTooBigBody max (goSlice p 0 (min p.length 1232))) = _
      unfold packetTooBigBody
      rw [Nat.mod_eq_of_lt hmax]
      rfl

/-- C7: truncation of the embedded original packet. Whenever a synthesizer
entry point accepts a packet, the synthesized ICMP packet is a fixed-length
prelude (outer header plus ICMP header: 28 bytes for IPv4, 48 for IPv6)
followed by exactly the first `min(len, 28)` (IPv4) or `min(len, 1232)`
(IPv6) bytes of the original, in both the Time Exceeded and the Packet Too
Big branches. -/
theorem c7_truncation (p : List Nat) (mtu : Nat) :
    (ipVersion p = 4 → 20 ≤ p.length →
      (∃ pre, composeICMPHopLimitExceededPacket p =
          .ok (pre ++ p.take (min p.length 28)) ∧ pre.length = 28) ∧
      (∃ pre, composeICMPTooLargePacket p mtu =
          .ok (pre ++ p.take (min p.length 28)) ∧ pre.length = 28)) ∧
    (ipVersion p = 6 → 40 ≤ p.length →
      (∃ pre, composeICMPHopLimitExceededPacket p =
          .ok (pre ++ p.take (min p.length 1232)) ∧ pre.length = 48) ∧
      (∃ pre, composeICMPTooLargePacket p mtu =
          .ok (pre ++ p.take (min p.length 1232)) ∧ pre.length = 48)) := by
  constructor
  · intro hv hl
    have srcLen : (goSlice p 16 20).length = 4 := goSlice_length p 16 20 (by omega) (by omega)
    have dstLen : (goSlice p 12 16).length = 4 := goSlice_length p 12 16 (by omega) (by omega)
    constructor
    · obtain ⟨m1, m2, hmsg⟩ :=
        icmpMarshalV4_shape 11 0 (timeExceededBody (goSlice p 0 (min p.length 28)))
      obtain ⟨t1, t2, k1, k2, hshape⟩ := composeIPv4ICMP_shape
        (icmpMarshalV4 11 0 (timeExceededBody (goSlice p 0 (min p.length 28))))
        (goSlice p 16 20) (goSlice p 12 16) srcLen dstLen
      refine ⟨[69, 0, t1, t2, 0, 0, 0, 0, 64, 1, k1, k2] ++ goSlice p 16 20 ++
        goSlice p 12 16 ++ [11, 0, m1, m2, 0, 0, 0, 0], ?_, ?_⟩
      · rw [composeHop_v4 p hv hl, hshape, hmsg]
        simp [goSlice, timeExceededBody, List.append_assoc]
      · simp [srcLen, dstLen]
    · obtain ⟨m1, m2, hmsg⟩ :=
        icmpMarshalV4_shape 3 4 (packetTooBigBody mtu (goSlice p 0 (min p.length 28)))
      obtain ⟨t1, t2, k1, k2, hshape⟩ := composeIPv4ICMP_shape
        (icmpMarshalV4 3 4 (packetTooBigBody mtu (goSlice p 0 (min p.length 28))))
        (goSlice p 16 20) (goSlice p 12 16) srcLen dstLen
      refine ⟨[69, 0, t1, t2, 0, 0, 0, 0, 64, 1, k1, k2] ++ goSlice p 16 20 ++
        goSlice p 12 16 ++ [3, 4, m1, m2, mtu % 4294967296 / 16777216 % 256,
          mtu / 65536 % 256, mtu / 256 % 256, mtu % 256], ?_, ?_⟩
      · rw [composeTooLarge_v4 p mtu hv hl, hshape, hmsg]
        simp [goSlice, packetTooBigBody, List.append_assoc]
      · simp [srcLen, dstLen]
  · intro hv hl
    have srcLen : (goSlice p 24 40).length = 16 := goSlice_length p 24 40 (by omega) (by omega)
    have dstLen : (goSlice p 8 24).length = 16 := goSlice_length p 8 24 (by omega) (by omega)
    constructor
    · obtain ⟨m1, m2, hmsg⟩ := icmpMarshalV6_shape (goSlice p 24 40) (goSlice p 8 24) 3 0
        (timeExceededBody (goSlice p 0 (min p.length 1232)))
      obtain ⟨t1, t2, hshape⟩ := composeIPv6ICMP_shape
        (icmpMarshalV6 (goSlice p 24 40) (goSlice p 8 24) 3 0
          (timeExceededBody (goSlice p 0 (min p.length 1232))))
        (goSlice p 24 40) (goSlice p 8 24) srcLen dstLen
      refine ⟨[96, 0, 0, 0, t1, t2, 58, 64] ++ goSlice p 24 40 ++
        goSlice p 8 24 ++ [3, 0, m1, m2, 0, 0, 0, 0], ?_, ?_⟩
      · rw [composeHop_v6 p hv hl, hshape, hmsg]
        simp [goSlice, timeExceededBody, List.append_assoc]
      · simp [srcLen, dstLen]
    · obtain ⟨m1, m2, hmsg⟩ := icmpMarshalV6_shape (goSlice p 24 40) (goSlice p 8 24) 2 0
        (packetTooBigBody mtu (goSlice p 0 (min p.length 1232)))
      obtain ⟨t1, t2, hshape⟩ := composeIPv6ICMP_shape
        (icmpMarshalV6 (goSlice p 24 40) (goSlice p 8 24) 2 0
          (packetTooBigBody mtu (goSlice p 0 (min p.length 1232))))
        (goSlice p 24 40) (goSlice p 8 24) srcLen dstLen
      refine ⟨[96, 0, 0, 0, t1, t2, 58, 64] ++ goSlice p 24 40 ++
        goSlice p 8 24 ++ [2, 0, m1, m2, mtu % 4294967296 / 16777216 % 256,
          mtu / 65536 % 256, mtu / 256 % 256, mtu % 256], ?_, ?_⟩
      · rw [composeTooLarge_v6 p mtu hv hl, hshape, hmsg]
        simp [goSlice, packetTooBigBody, List.append_assoc]
      · simp [srcLen, dstLen]

/-- C8: unparseable packets pass through. For the empty packet, an IPv4
packet shorter than 20 bytes, an IPv6 packet shorter than 40 bytes, or a
packet with an unknown version nibble, `CheckPacket` returns the Ok verdict
(`nil`) and `WritePacket` on either transport frames and forwards the packet
rather than synthesizing an ICMP reply. -/
theorem c8_passthrough (p : List Nat)
    (h : p = [] ∨ (ipVersion p = 4 ∧ p.length < 20) ∨ (ipVersion p = 6 ∧ p.length < 40) ∨
      (ipVersion p ≠ 4 ∧ ipVersion p ≠ 6)) :
    CheckPacket p = none ∧
      http2WritePacket p = .sent (0 :: (appendVarint p.length ++ p)) ∧
      http3WritePacket .ok p = .sent (0 :: p) := by
  have hc : CheckPacket p = none := by
    unfold CheckPacket
    rcases h with rfl | ⟨hv, hl⟩ | ⟨hv, hl⟩ | ⟨h4, h6⟩
    · rfl
    · by_cases h0 : p.length = 0
      · rw [if_pos h0]
      · rw [if_neg h0, if_pos hv, if_pos hl]
    · by_cases h0 : p.length = 0
      · rw [if_pos h0]
      · rw [if_neg h0, if_neg (by omega), if_pos hv, if_pos hl]
    · by_cases h0 : p.length = 0
      · rw [if_pos h0]
      · rw [if_neg h0, if_neg h4, if_neg h6]
  refine ⟨hc, ?_, ?_⟩
  · unfold http2WritePacket
    rw [hc]
  · unfold http3WritePacket
    rw [hc]

/-- C9: synthesizer edge cases. Both ICMP synthesizer entry points return an
error (and hence no packet) on empty input, on input shorter than the
minimum header for its version nibble, and on an unknown version nibble. -/
theorem c9_compose_errors (p : List Nat) (mtu : Nat)
    (h : p = [] ∨ (ipVersion p = 4 ∧ p.length < 20) ∨ (ipVersion p = 6 ∧ p.length < 40) ∨
      (ipVersion p ≠ 4 ∧ ipVersion p ≠ 6)) :
    (∃ e, composeICMPTooLargePacket p mtu = .error e) ∧
      (∃ e, composeICMPHopLimitExceededPacket p = .error e) := by
  constructor
  · unfold composeICMPTooLargePacket
    rcases h with rfl | ⟨hv, hl⟩ | ⟨hv, hl⟩ | ⟨h4, h6⟩
    · exact ⟨_, rfl⟩
    · by_cases h0 : p.length = 0
      · rw [if_pos h0]; exact ⟨_, rfl⟩
      · rw [if_neg h0, if_pos hv, if_pos hl]; exact ⟨_, rfl⟩
    · by_cases h0 : p.length = 0
      · rw [if_pos h0]; exact ⟨_, rfl⟩
      · rw [if_neg h0, if_neg (by omega), if_pos hv, if_pos hl]; exact ⟨_, rfl⟩
    · by_cases h0 : p.length = 0
      · rw [if_pos h0]; exact ⟨_, rfl⟩
      · rw [if_neg h0, if_neg h4, if_neg h6]; exact ⟨_, rfl⟩
  · unfold composeICMPHopLimitExceededPacket
    rcases h with rfl | ⟨hv, hl⟩ | ⟨hv, hl⟩ | ⟨h4, h6⟩
    · exact ⟨_, rfl⟩
    · by_cases h0 : p.length = 0
      · rw [if_pos h0]; exact ⟨_, rfl⟩
      · rw [if_neg h0, if_pos hv, if_pos hl]; exact ⟨_, rfl⟩
    · by_cases h0 : p.length = 0
      · rw [if_pos h0]; exact ⟨_, rfl⟩
      · rw [if_neg h0, if_neg (by omega), if_pos hv, if_pos hl]; exact ⟨_, rfl⟩
    · by_cases h0 : p.length = 0
      · rw [if_pos h0]; exact ⟨_, rfl⟩
      · rw [if_neg h0, if_neg h4, if_neg h6]; exact ⟨_, rfl⟩

/-- C2: HTTP/2 framing roundtrip. For packets no longer than the MTU that
pass the hop-limit check, and a read buffer of at least MTU capacity, the
two wire records produced by `WritePacket` (varint context id 0, varint
length, raw bytes), concatenated and fed to `ReadPacket` twice, yield
exactly the first packet and then exactly the second. -/
theorem c2_roundtrip (p1 p2 : List Nat) (mtu bufCap : Nat)
    (h1 : p1.length ≤ mtu) (h2 : p2.length ≤ mtu) (hcap : mtu ≤ bufCap)
    (hm : mtu < 4611686018427387904)
    (hchk1 : CheckPacket p1 = none) (hchk2 : CheckPacket p2 = none) :
    http2WritePacket p1 = .sent (0 :: (appendVarint p1.length ++ p1)) ∧
    http2WritePacket p2 = .sent (0 :: (appendVarint p2.length ++ p2)) ∧
    http2ReadPacket bufCap ((0 :: (appendVarint p1.length ++ p1)) ++
      (0 :: (appendVarint p2.length ++ p2))) =
      .packet p1 (0 :: (appendVarint p2.length ++ p2)) ∧
    http2ReadPacket bufCap (0 :: (appendVarint p2.length ++ p2)) = .packet p2 [] := by
  refine ⟨?_, ?_, ?_, ?_⟩
  · unfold http2WritePacket
    rw [hchk1]
  · unfold http2WritePacket
    rw [hchk2]
  · have hr := http2ReadPacket_record bufCap 0 p1 (0 :: (appendVarint p2.length ++ p2))
      (by omega) (by omega) (by omega)
    rw [if_pos rfl] at hr
    exact hr
  · have hr := http2ReadPacket_record bufCap 0 p2 [] (by omega) (by omega) (by omega)
    rw [if_pos rfl, List.append_nil] at hr
    exact hr

/-- C6: context-id multiplexing. A record or datagram whose leading varint
context id is not 0 is never handed to the caller: both `ReadPacket`
implementations consume it entirely and continue with the rest of the
input. -/
theorem c6_context_skip (bufCap bufLen c : Nat) (payload rest : List Nat)
    (ds : List (List Nat))
    (hc : c ≠ 0) (hcv : c < 4611686018427387904)
    (hl : payload.length ≤ bufCap) (hlv : payload.length < 4611686018427387904) :
    http2ReadPacket bufCap
        ((appendVarint c ++ (appendVarint payload.length ++ payload)) ++ rest) =
      http2ReadPacket bufCap rest ∧
    http3ReadPacket bufLen ((appendVarint c ++ payload) :: ds) =
      http3ReadPacket bufLen ds := by
  constructor
  · have hr := http2ReadPacket_record bufCap c payload rest hcv hlv hl
    rw [if_neg hc] at hr
    exact hr
  · simp only [http3ReadPacket]
    rw [readVarint_appendVarint c payload hcv]
    dsimp only
    rw [if_neg hc]

/-- C10: `ReadPacket` slices `buf[:length]` with no capacity check. For every
buffer capacity there is an input stream — a record declaring one byte more
than the capacity — on which the slice is out of bounds (a runtime panic)
instead of an error; and the out-of-bounds slice occurs exactly when a
record's declared length exceeds the capacity, so `ReadPacket` is total
under the precondition that every declared length fits the buffer. -/
theorem c10_oob_slicing (bufCap : Nat) :
    (bufCap + 1 < 4611686018427387904 →
      http2ReadPacket bufCap (0 :: appendVarint (bufCap + 1)) = .sliceOOB (bufCap + 1)) ∧
    (∀ stream L, http2ReadPacket bufCap stream = .sliceOOB L → bufCap < L) := by
  constructor
  · intro h
    have hru := readVarint_appendVarint (bufCap + 1) [] (by omega)
    rw [List.append_nil] at hru
    rw [http2ReadPacket]
    rw [show readVarint (0 :: appendVarint (bufCap + 1)) =
      some (0, appendVarint (bufCap + 1)) from rfl]
    dsimp only
    rw [hru]
    dsimp only
    rw [if_pos (by omega)]
  · intro stream L hL
    exact http2ReadPacket_sliceOOB bufCap stream L hL

/-- Core of the IPv4 checksum property over an abstract 20-byte header whose
checksum field holds `calculateIPv4Checksum` of the same header with the
field cleared. -/
theorem c3_core (t1 t2 s0 s1 s2 s3 d0 d1 d2 d3 ck : Nat)
    (hck : ck = calculateIPv4Checksum
      [69, 0, t1, t2, 0, 0, 0, 0, 64, 1, 0, 0, s0, s1, s2, s3, d0, d1, d2, d3])
    (b1 : t1 < 256) (b2 : t2 < 256)
    (bs0 : s0 < 256) (bs1 : s1 < 256) (bs2 : s2 < 256) (bs3 : s3 < 256)
    (bd0 : d0 < 256) (bd1 : d1 < 256) (bd2 : d2 < 256) (bd3 : d3 < 256) :
    onesSum16 (words16 [69, 0, t1, t2, 0, 0, 0, 0, 64, 1,
      ck % 65536 / 256, ck % 256, s0, s1, s2, s3, d0, d1, d2, d3]) = 65535 := by
  unfold calculateIPv4Checksum at hck
  set X := calcSumAux [69, 0, t1, t2, 0, 0, 0, 0, 64, 1, 0, 0,
    s0, s1, s2, s3, d0, d1, d2, d3] 0 0 with hX
  have hXval : X = 69 * 256 + (t1 * 256 + t2) + (64 * 256 + 1) + (s0 * 256 + s1) +
      (s2 * 256 + s3) + (d0 * 256 + d1) + (d2 * 256 + d3) := by
    rw [hX]
    norm_num [calcSumAux]
    omega
  have hFlt := foldCarry_lt X
  have hFmod := foldCarry_mod X
  clear_value X
  clear hX
  generalize hFg : foldCarry X = F at hck hFlt hFmod
  have hck2 : ck = 65535 - F := by omega
  have hckw : ck % 65536 / 256 * 256 + ck % 256 = ck := by omega
  unfold onesSum16
  simp only [words16, List.sum_cons, List.sum_nil]
  rw [hckw]
  apply foldCarry_complete
  · omega
  · omega

/-- C3: the synthesized IPv4 header checksums to 0xFFFF. For every header
built by `composeIPv4ICMP` (4-byte source and destination addresses, byte
values), the one's-complement sum over all ten 16-bit words of the 20-byte
header, including the stored checksum field, is 0xFFFF. -/
theorem c3_ipv4_checksum (icmp source dest : List Nat)
    (hs : source.length = 4) (hd : dest.length = 4)
    (hsb : ∀ b ∈ source, b < 256) (hdb : ∀ b ∈ dest, b < 256) :
    onesSum16 (words16 (List.take 20 (composeIPv4ICMP icmp source dest))) = 65535 := by
  obtain ⟨s0, s1, s2, s3, rfl⟩ := list4_of_length hs
  obtain ⟨d0, d1, d2, d3, rfl⟩ := list4_of_length hd
  simp only [List.mem_cons, List.not_mem_nil, or_false, forall_eq_or_imp, forall_eq] at hsb hdb
  have e : List.take 20 (composeIPv4ICMP icmp [s0, s1, s2, s3] [d0, d1, d2, d3]) =
      [69, 0, (20 + icmp.length) % 65536 / 256, (20 + icmp.length) % 256, 0, 0, 0, 0, 64, 1,
        calculateIPv4Checksum [69, 0, (20 + icmp.length) % 65536 / 256,
          (20 + icmp.length) % 256, 0, 0, 0, 0, 64, 1, 0, 0,
          s0, s1, s2, s3, d0, d1, d2, d3] % 65536 / 256,
        calculateIPv4Checksum [69, 0, (20 + icmp.length) % 65536 / 256,
          (20 + icmp.length) % 256, 0, 0, 0, 0, 64, 1, 0, 0,
          s0, s1, s2, s3, d0, d1, d2, d3] % 256,
        s0, s1, s2, s3, d0, d1, d2, d3] := rfl
  rw [e]
  exact c3_core _ _ _ _ _ _ _ _ _ _ _ rfl (by omega) (by omega)
    hsb.1 hsb.2.1 hsb.2.2.1 hsb.2.2.2 hdb.1 hdb.2.1 hdb.2.2.1 hdb.2.2.2

/-- A buffer handed out by `Get` keeps the pool capacity when the pooled set
does. -/
theorem netBufferGet_cap (capacity : Nat) (pool : List GoSlice) (c : Nat)
    (hpool : ∀ b ∈ pool, b.cap = capacity) :
    ((netBufferGet capacity pool c).1).cap = capacity := by
  unfold netBufferGet
  split
  · next h => exact hpool _ (pool.get_mem c h)
  · rfl

/-- A buffer handed out by `Get` keeps the pool length when the pooled set
does. -/
theorem netBufferGet_len (capacity : Nat) (pool : List GoSlice) (c : Nat)
    (hpool : ∀ b ∈ pool, b.cap = capacity ∧ b.len = capacity) :
    ((netBufferGet capacity pool c).1).len = capacity := by
  unfold netBufferGet
  split
  · next h => exact (hpool _ (pool.get_mem c h)).2
  · rfl

/-- `Get` never adds to the pooled set. -/
theorem netBufferGet_rest (capacity : Nat) (pool : List GoSlice) (c : Nat) :
    ∀ b ∈ (netBufferGet capacity pool c).2, b ∈ pool := by
  unfold netBufferGet
  split
  · intro b hb
    exact (List.eraseIdx_sublist pool c).subset hb
  · intro b hb
    exact hb

/-- `Put` only inserts a buffer of matching capacity. -/
theorem netBufferPut_mem (capacity : Nat) (pool : List GoSlice) (buf : GoSlice) :
    ∀ b ∈ netBufferPut capacity pool buf, b ∈ pool ∨ (b = buf ∧ b.cap = capacity) := by
  unfold netBufferPut
  split
  · intro b hb
    exact .inl hb
  · next h =>
    intro b hb
    rcases List.mem_cons.mp hb with rfl | hb2
    · right
      refine ⟨rfl, ?_⟩
      by_contra hne
      exact h hne
    · left
      exact hb2

/-- Every buffer a `Get` hands out has the pool capacity. -/
theorem runPool_get_cap (capacity : Nat) (ops : List PoolOp) :
    ∀ pool, (∀ b ∈ pool, b.cap = capacity) →
      ∀ b ∈ (runPool capacity ops pool).2, b.cap = capacity := by
  induction ops with
  | nil =>
    intro pool hpool b hb
    simp [runPool] at hb
  | cons op rest ih =>
    intro pool hpool b hb
    cases op with
    | get c =>
      simp only [runPool] at hb
      rcases List.mem_cons.mp hb with rfl | h2
      · exact netBufferGet_cap capacity pool c hpool
      · exact ih _ (fun x hx => hpool x (netBufferGet_rest capacity pool c x hx)) b h2
    | put buf =>
      simp only [runPool] at hb
      refine ih _ ?_ b hb
      intro x hx
      rcases netBufferPut_mem capacity pool buf x hx with h1 | ⟨_, h2⟩
      · exact hpool x h1
      · exact h2

/-- When every `Put` returns a full-length buffer, every `Get` hands out a
full-length buffer. -/
theorem runPool_get_len (capacity : Nat) (ops : List PoolOp) :
    ∀ pool, (∀ b : GoSlice, PoolOp.put b ∈ ops → b.len = b.cap) →
      (∀ b ∈ pool, b.cap = capacity ∧ b.len = capacity) →
      ∀ b ∈ (runPool capacity ops pool).2, b.len = capacity := by
  induction ops with
  | nil =>
    intro pool _ _ b hb
    simp [runPool] at hb
  | cons op rest ih =>
    intro pool hd hpool b hb
    cases op with
    | get c =>
      simp only [runPool] at hb
      rcases List.mem_cons.mp hb with rfl | h2
      · exact netBufferGet_len capacity pool c hpool
      · exact ih _ (fun x hx => hd x (List.mem_cons_of_mem _ hx))
          (fun x hx => ⟨(fun y hy => (hpool y hy).1) x (netBufferGet_rest capacity pool c x hx),
            (hpool x (netBufferGet_rest capacity pool c x hx)).2⟩) b h2
    | put buf =>
      simp only [runPool] at hb
      refine ih _ (fun x hx => hd x (List.mem_cons_of_mem _ hx)) ?_ b hb
      intro x hx
      rcases netBufferPut_mem capacity pool buf x hx with h1 | ⟨rfl, h2⟩
      · exact hpool x h1
      · exact ⟨h2, by rw [hd x (List.mem_cons_self _ _)]; exact h2⟩

/-- C5 counterexample: `Put` only checks capacity, so a buffer reshaped to a
shorter length but full capacity is pooled and then handed back by `Get`
with its short length: the claim that every `Get` yields a buffer of length
equal to the pool capacity is false as stated. -/
theorem c5_counterexample :
    GoSlice.mk 1 2 ∈ (runPool 2 [PoolOp.put ⟨1, 2⟩, PoolOp.get 0] []).2 ∧
    (GoSlice.mk 1 2).len ≠ 2 := by
  decide

/-- C5 (amended): every buffer handed out by `Get` has capacity equal to the
pool capacity — in particular a buffer passed to `Put` with a different
capacity is never handed out — and, provided every buffer passed to `Put`
has length equal to its capacity (as in the repository's usage), every
buffer handed out by `Get` also has length equal to the pool capacity. -/
theorem c5_pool (capacity : Nat) (ops : List PoolOp) :
    (∀ b ∈ (runPool capacity ops []).2, b.cap = capacity) ∧
    ((∀ b : GoSlice, PoolOp.put b ∈ ops → b.len = b.cap) →
      ∀ b ∈ (runPool capacity ops []).2, b.len = capacity) := by
  constructor
  · exact runPool_get_cap capacity ops [] (by simp)
  · intro hd
    exact runPool_get_len capacity ops [] hd (by simp)

/-- Witness for the amended C5 at a concrete trace. -/
theorem c5_pool_witness :
    (GoSlice.mk 2 2).cap = 2 ∧ (GoSlice.mk 2 2).len = 2 :=
  ⟨(c5_pool 2 [PoolOp.put ⟨2, 2⟩, PoolOp.get 0]).1 ⟨2, 2⟩ (by decide),
   (c5_pool 2 [PoolOp.put ⟨2, 2⟩, PoolOp.get 0]).2
     (by
       intro b hb
       simp only [List.mem_cons, List.not_mem_nil, or_false, reduceCtorEq,
         PoolOp.put.injEq] at hb
       rw [hb]) ⟨2, 2⟩ (by decide)⟩

/-- Witness for C1 at a concrete IPv4 packet with TTL 1. -/
theorem c1_ttl_gate_witness :
    ∃ out,
      http2WritePacket [69, 0, 0, 28, 0, 0, 0, 0, 1, 1, 0, 0, 10, 0, 0, 1, 1, 1, 1, 1,
        8, 0, 0, 0, 0, 0, 0, 0] = .icmp out ∧
      (∀ send, http3WritePacket send [69, 0, 0, 28, 0, 0, 0, 0, 1, 1, 0, 0, 10, 0, 0, 1,
        1, 1, 1, 1, 8, 0, 0, 0, 0, 0, 0, 0] = .icmp out) ∧
      out ≠ [] ∧
      goSlice out 12 16 = goSlice [69, 0, 0, 28, 0, 0, 0, 0, 1, 1, 0, 0, 10, 0, 0, 1,
        1, 1, 1, 1, 8, 0, 0, 0, 0, 0, 0, 0] 16 20 ∧
      goSlice out 16 20 = goSlice [69, 0, 0, 28, 0, 0, 0, 0, 1, 1, 0, 0, 10, 0, 0, 1,
        1, 1, 1, 1, 8, 0, 0, 0, 0, 0, 0, 0] 12 16 ∧
      goSlice out 20 22 = [11, 0] :=
  (c1_ttl_gate [69, 0, 0, 28, 0, 0, 0, 0, 1, 1, 0, 0, 10, 0, 0, 1, 1, 1, 1, 1,
    8, 0, 0, 0, 0, 0, 0, 0]).1 (by decide) (by decide) (by decide)

/-- Witness for C2 at two concrete packets. -/
theorem c2_roundtrip_witness :
    http2WritePacket [1, 2, 3] =
      .sent (0 :: (appendVarint ([1, 2, 3] : List Nat).length ++ [1, 2, 3])) ∧
    http2WritePacket [4, 5] =
      .sent (0 :: (appendVarint ([4, 5] : List Nat).length ++ [4, 5])) ∧
    http2ReadPacket 3 ((0 :: (appendVarint ([1, 2, 3] : List Nat).length ++ [1, 2, 3])) ++
      (0 :: (appendVarint ([4, 5] : List Nat).length ++ [4, 5]))) =
      .packet [1, 2, 3] (0 :: (appendVarint ([4, 5] : List Nat).length ++ [4, 5])) ∧
    http2ReadPacket 3 (0 :: (appendVarint ([4, 5] : List Nat).length ++ [4, 5])) =
      .packet [4, 5] [] :=
  c2_roundtrip [1, 2, 3] [4, 5] 3 3 (by decide) (by decide) (by decide) (by decide)
    (by decide) (by decide)

/-- Witness for C3 at concrete addresses. -/
theorem c3_ipv4_checksum_witness :
    onesSum16 (words16 (List.take 20 (composeIPv4ICMP [] [10, 0, 0, 1] [1, 1, 1, 1]))) =
      65535 :=
  c3_ipv4_checksum [] [10, 0, 0, 1] [1, 1, 1, 1] rfl rfl (by decide) (by decide)

/-- Witness for C4 at a concrete IPv4 packet and a 1300-byte datagram limit. -/
theorem c4_mtu_gate_witness :
    ∃ out, http3WritePacket (.tooLarge 1300) [69, 0, 0, 28, 0, 0, 0, 0, 64, 1, 0, 0,
        10, 0, 0, 1, 1, 1, 1, 1, 8, 0, 0, 0, 0, 0, 0, 0] = .icmp out ∧
      goSlice out 12 16 = goSlice [69, 0, 0, 28, 0, 0, 0, 0, 64, 1, 0, 0, 10, 0, 0, 1,
        1, 1, 1, 1, 8, 0, 0, 0, 0, 0, 0, 0] 16 20 ∧
      goSlice out 16 20 = goSlice [69, 0, 0, 28, 0, 0, 0, 0, 64, 1, 0, 0, 10, 0, 0, 1,
        1, 1, 1, 1, 8, 0, 0, 0, 0, 0, 0, 0] 12 16 ∧
      goSlice out 20 22 = [3, 4] ∧
      goSlice out 24 28 =
        [1300 / 16777216 % 256, 1300 / 65536 % 256, 1300 / 256 % 256, 1300 % 256] :=
  (c4_mtu_gate [69, 0, 0, 28, 0, 0, 0, 0, 64, 1, 0, 0, 10, 0, 0, 1, 1, 1, 1, 1,
    8, 0, 0, 0, 0, 0, 0, 0] 1300 (by decide) (by decide)).1 (by decide) (by decide)

/-- Witness for C6 at a concrete record with context id 1. -/
theorem c6_context_skip_witness :
    http2ReadPacket 1
        ((appendVarint 1 ++ (appendVarint ([7] : List Nat).length ++ [7])) ++ []) =
      http2ReadPacket 1 [] ∧
    http3ReadPacket 5 [appendVarint 1 ++ [7]] = http3ReadPacket 5 [] :=
  c6_context_skip 1 5 1 [7] [] [] (by decide) (by decide) (by decide) (by decide)

/-- Witness for C7 at a concrete IPv4 packet. -/
theorem c7_truncation_witness :
    (∃ pre, composeICMPHopLimitExceededPacket [69, 0, 0, 28, 0, 0, 0, 0, 1, 1, 0, 0,
        10, 0, 0, 1, 1, 1, 1, 1, 8, 0, 0, 0, 0, 0, 0, 0] =
      .ok (pre ++ List.take (min ([69, 0, 0, 28, 0, 0, 0, 0, 1, 1, 0, 0, 10, 0, 0, 1,
        1, 1, 1, 1, 8, 0, 0, 0, 0, 0, 0, 0] : List Nat).length 28)
          [69, 0, 0, 28, 0, 0, 0, 0, 1, 1, 0, 0, 10, 0, 0, 1, 1, 1, 1, 1,
            8, 0, 0, 0, 0, 0, 0, 0]) ∧ pre.length = 28) ∧
    (∃ pre, composeICMPTooLargePacket [69, 0, 0, 28, 0, 0, 0, 0, 1, 1, 0, 0,
        10, 0, 0, 1, 1, 1, 1, 1, 8, 0, 0, 0, 0, 0, 0, 0] 1300 =
      .ok (pre ++ List.take (min ([69, 0, 0, 28, 0, 0, 0, 0, 1, 1, 0, 0, 10, 0, 0, 1,
        1, 1, 1, 1, 8, 0, 0, 0, 0, 0, 0, 0] : List Nat).length 28)
          [69, 0, 0, 28, 0, 0, 0, 0, 1, 1, 0, 0, 10, 0, 0, 1, 1, 1, 1, 1,
            8, 0, 0, 0, 0, 0, 0, 0]) ∧ pre.length = 28) :=
  (c7_truncation [69, 0, 0, 28, 0, 0, 0, 0, 1, 1, 0, 0, 10, 0, 0, 1, 1, 1, 1, 1,
    8, 0, 0, 0, 0, 0, 0, 0] 1300).1 (by decide) (by decide)

/-- Witness for C8 at a concrete unparseable packet. -/
theorem c8_passthrough_witness :
    CheckPacket [1, 2, 3] = none ∧
      http2WritePacket [1, 2, 3] =
        .sent (0 :: (appendVarint ([1, 2, 3] : List Nat).length ++ [1, 2, 3])) ∧
      http3WritePacket .ok [1, 2, 3] = .sent (0 :: [1, 2, 3]) :=
  c8_passthrough [1, 2, 3] (by decide)

/-- Witness for C9 at a concrete truncated IPv4 packet. -/
theorem c9_compose_errors_witness :
    (∃ e, composeICMPTooLargePacket [69] 1300 = .error e) ∧
      (∃ e, composeICMPHopLimitExceededPacket [69] = .error e) :=
  c9_compose_errors [69] 1300 (by decide)

/-- Witness for C10 at buffer capacity 5. -/
theorem c10_oob_slicing_witness :
    http2ReadPacket 5 (0 :: appendVarint 6) = .sliceOOB 6 ∧ 5 < 6 :=
  have h1 := (c10_oob_slicing 5).1 (by decide)
  ⟨h1, (c10_oob_slicing 5).2 (0 :: appendVarint 6) 6 h1⟩

end Usque
